import Mathlib

/-!
Shallow embedding of the task manager "gestor-tareas-don-edgar".

Embedded source files:
  * `src/models/tarea.js` — the `Tarea` class (id generation, validation,
    completion state transitions).
  * `src/utils/fileStorage.js` — `cargarTareas` / `guardarTareas`, the JSON
    file persistence layer.
  * `src/data/tareas.js` — the global collection, `inicializarTareas` and
    `persistirTareas`.
  * `src/controllers/tareasController.js` — the business operations
    (`agregarTarea`, `listarTareas`, `editarTarea`, `eliminarTarea`,
    `mostrarEstadisticas`).

Modelling conventions:
  * JavaScript strings are Lean `String`s; the JS string operations used by
    the source (`trim`, `_.toLower`, lexicographic `<` on ISO timestamps)
    are re-implemented structurally over `String.data` so that all
    definitions evaluate inside the kernel.
  * A field removed with the JS `delete` operator (the `fechaCompletada`
    field of a pending task) is modelled with `Option`: `none` is "the field
    is absent from the object".
  * The JSON file is modelled by the `Almacenamiento` type.  `JSON.stringify`
    followed by `JSON.parse` on a `Tarea` object preserves exactly the five
    own enumerable fields of the class, so a successfully written file is
    modelled as holding the task list itself.
  * Interactive `inquirer` answers (the typed description, the selected id,
    the confirmation) and the ambient clock (`new Date().toISOString()`)
    are passed to the embedded operations as explicit arguments.
  * `_.uniqueId` keeps a module-global counter that starts at 0 in every
    process; the counter is threaded explicitly as a `Nat`.
-/

namespace GestorTareas

/-- JS `Char` whitespace test used by `trim` (the characters that actually
occur in this code base's inputs). -/
def esEspacio (c : Char) : Bool :=
  c = ' ' || c = '\t' || c = '\n' || c = '\r'

/-- JS `String.prototype.trim`: strip leading and trailing whitespace. -/
def recortar (s : String) : String :=
  ⟨((s.data.dropWhile esEspacio).reverse.dropWhile esEspacio).reverse⟩

/-- Lodash `_.toLower`: convert every character to lower case. -/
def minusculas (s : String) : String :=
  ⟨s.data.map Char.toLower⟩

/-- Lodash `_.isEmpty` applied to the result of `x?.trim()`-style optional
chaining: `undefined` is empty, a string is empty iff it has length 0. -/
def esVaciaJs : Option String → Bool
  | none => true
  | some s => s.data.isEmpty

/-- Lexicographic `<=` on JS strings (code-unit comparison), used by lodash
`compareAscending` on the ISO `fechaCreacion` timestamps. -/
def leChars : List Char → List Char → Bool
  | [], _ => true
  | _ :: _, [] => false
  | a :: as, b :: bs =>
    if a < b then true
    else if b < a then false
    else leChars as bs

/-- String form of `leChars`. -/
def leStr (a b : String) : Bool :=
  leChars a.data b.data

/-- One task object, exactly the own fields created by the `Tarea` class in
`src/models/tarea.js` (`fechaCompletada` is absent — `none` — until
`marcarCompletada` sets it). -/
structure Tarea where
  id : String
  descripcion : String
  completada : Bool
  fechaCreacion : String
  fechaCompletada : Option String
  deriving DecidableEq

/-- Lodash `_.uniqueId('tarea_')`: increment the module-global counter and
append it to the `tarea_` literal.  Returns the id and the new counter. -/
def uniqueId (contador : Nat) : String × Nat :=
  ("tarea_" ++ toString (contador + 1), contador + 1)

/-- The `Tarea` constructor: fresh id from `_.uniqueId('tarea_')`, trimmed
description, `completada = false`, creation timestamp, no completion
timestamp.  `ahora` is the injected value of `new Date().toISOString()`. -/
def Tarea.nueva (contador : Nat) (descripcion ahora : String) : Tarea × Nat :=
  let par := uniqueId contador
  ({ id := par.1
     descripcion := recortar descripcion
     completada := false
     fechaCreacion := ahora
     fechaCompletada := none }, par.2)

/-- `Tarea.prototype.marcarCompletada`: set `completada` and record the
completion timestamp. -/
def Tarea.marcarCompletada (t : Tarea) (ahora : String) : Tarea :=
  { t with completada := true, fechaCompletada := some ahora }

/-- `Tarea.prototype.marcarPendiente`: clear `completada` and `delete` the
`fechaCompletada` field (absence, not a null value). -/
def Tarea.marcarPendiente (t : Tarea) : Tarea :=
  { t with completada := false, fechaCompletada := none }

/-- Static `Tarea.validarDescripcion`: `!_.isEmpty(descripcion?.trim())`.
`none` models a `null`/`undefined` argument, absorbed by the `?.` chain. -/
def Tarea.validarDescripcion (descripcion : Option String) : Bool :=
  !(esVaciaJs (descripcion.map recortar))

/-- Static factory `Tarea.crearTarea`: throws when `validarDescripcion`
fails, otherwise builds a new `Tarea`.  A `none` description always takes
the error branch because `validarDescripcion none = false`. -/
def Tarea.crearTarea (contador : Nat) (descripcion : Option String) (ahora : String) :
    Except String (Tarea × Nat) :=
  if Tarea.validarDescripcion descripcion then
    match descripcion with
    | some d => .ok (Tarea.nueva contador d ahora)
    | none => .error "La descripción de la tarea no puede estar vacía"
  else
    .error "La descripción de la tarea no puede estar vacía"

/-- State of the JSON storage file (`src/utils/fileStorage.js`): missing
file, unreadable file (permissions / IO failure), unparseable JSON content,
or a well-formed file holding a task list. -/
inductive Almacenamiento where
  | ausente
  | sinAcceso
  | corrupto
  | datos (tareas : List Tarea)
  deriving DecidableEq

/-- `cargarTareas`: read and parse the file; the `catch` branch turns every
failure (missing file, access error, bad JSON) into the empty array. -/
def cargarTareas : Almacenamiento → List Tarea
  | .datos ts => ts
  | _ => []

/-- `guardarTareas`: overwrite the file with the serialized collection and
report `true`; on a write failure (`escrituraOk = false`, modelling an
`fs` error) report `false` and leave the previous file state.  Paired with
its resulting storage state. -/
def guardarTareas (escrituraOk : Bool) (ts : List Tarea) (st : Almacenamiento) :
    Bool × Almacenamiento :=
  if escrituraOk then (true, .datos ts) else (false, st)

/-- `inicializarTareas` (`src/data/tareas.js`): truncate the in-memory array
(`tareas.length = 0`) and push every loaded task into it. -/
def inicializarTareas (tareasActuales : List Tarea) (st : Almacenamiento) : List Tarea :=
  let tareasVaciadas := tareasActuales.take 0
  tareasVaciadas ++ cargarTareas st

/-- The three listing filters of `listarTareas`. -/
inductive Filtro where
  | todas
  | completadas
  | pendientes
  deriving DecidableEq

/-- The lodash `compareMultiple` comparison produced by
`_.orderBy(ts, ['completada', 'fechaCreacion'], ['asc', 'desc'])`:
`completada` ascending (`false` before `true`), ties broken by
`fechaCreacion` descending. -/
def ordenListado (a b : Tarea) : Bool :=
  if a.completada = b.completada then leStr b.fechaCreacion a.fechaCreacion
  else (!a.completada && b.completada)

/-- Stable insertion of one element into an already sorted list: the new
element goes after every earlier element that compares less-or-equal. -/
def insertarOrdenado {α : Type} (le : α → α → Bool) (x : α) : List α → List α
  | [] => [x]
  | y :: ys => if le x y then x :: y :: ys else y :: insertarOrdenado le x ys

/-- Stable sort by the comparison `le`.  Lodash `_.orderBy` is a stable sort
(`baseSortBy` keeps original indices as the final tie break), and a stable
sort by a total transitive comparison has a unique result, so insertion
sort is an exact model of it. -/
def ordenarEstable {α : Type} (le : α → α → Bool) (l : List α) : List α :=
  l.foldr (insertarOrdenado le) []

/-- `listarTareas` (tasks actually displayed, in display order): filter by
the requested state, then `_.orderBy(..., ['completada', 'fechaCreacion'],
['asc', 'desc'])`.  The early `console.log` returns for an empty collection
or an empty filter result display no tasks, which coincides with sorting
the empty list. -/
def listarTareas (filtro : Filtro) (tareas : List Tarea) : List Tarea :=
  let tareasAMostrar : List Tarea :=
    match filtro with
    | .todas => tareas
    | .completadas => tareas.filter (fun t => t.completada)
    | .pendientes => tareas.filter (fun t => !t.completada)
  ordenarEstable ordenListado tareasAMostrar

/-- The `validate` callback of the `agregarTarea` prompt: reject an empty
(after trim) input, then reject a case-insensitive duplicate found by
`_.find(tareas, t => _.toLower(t.descripcion) === _.toLower(input.trim()))`.
Returns the error message shown to the user, or `none` when the input is
accepted. -/
def validarDescripcionNueva (tareas : List Tarea) (entrada : Option String) : Option String :=
  if esVaciaJs (entrada.map recortar) then
    some "La descripción no puede estar vacía"
  else
    match entrada with
    | none => some "La descripción no puede estar vacía"
    | some d =>
      match tareas.find? (fun t => minusculas t.descripcion == minusculas (recortar d)) with
      | some _ => some "Ya existe una tarea con esa descripción"
      | none => none

/-- Outcome of a mutating controller operation: the collection afterwards,
the `_.uniqueId` counter afterwards, whether `persistirTareas()` was
invoked, and the error message reported, if any. -/
structure ResultadoMutacion where
  tareas : List Tarea
  contador : Nat
  persistio : Bool
  error : Option String
  deriving DecidableEq

/-- `agregarTarea`: with an input the prompt validation rejects, nothing
happens (inquirer keeps the prompt open; the operation performs no mutation
and no persistence); with an accepted input, `Tarea.crearTarea` builds the
task, it is pushed onto the collection and `persistirTareas()` runs. -/
def agregarTarea (contador : Nat) (tareas : List Tarea) (entrada : Option String)
    (ahora : String) : ResultadoMutacion :=
  match validarDescripcionNueva tareas entrada with
  | some e => ⟨tareas, contador, false, some e⟩
  | none =>
    match Tarea.crearTarea contador entrada ahora with
    | .error e => ⟨tareas, contador, false, some e⟩
    | .ok (t, contador') => ⟨tareas ++ [t], contador', true, none⟩

/-- The duplicate test of the `editarTarea` prompt validation:
`_.find(tareas, t => !t._id.equals(sel) && _.toLower(t.descripcion) ===
_.toLower(input.trim()))` — every task except the one being edited. -/
def hayDuplicadaOtra (tareas : List Tarea) (idSel : String) (d : String) : Bool :=
  (tareas.find? (fun t =>
    !(t.id == idSel) && minusculas t.descripcion == minusculas (recortar d))).isSome

/-- In-place mutation `tarea.descripcion = nuevaDescripcion.trim()` of the
object located by `_.find`: only the first task whose id matches is
rewritten, every other list cell is untouched. -/
def reemplazarDescripcion : List Tarea → String → String → List Tarea
  | [], _, _ => []
  | t :: ts, idSel, nueva =>
    if t.id == idSel then { t with descripcion := nueva } :: ts
    else t :: reemplazarDescripcion ts idSel nueva

/-- `editarTarea`: locate the selected task, validate the new description
(non-empty after trim, no case-insensitive duplicate among the *other*
tasks), then assign the trimmed description to the located object and call
`persistirTareas()`.  The selection list only offers existing ids; a
missing id is the defensive error branch.  Returns the collection and the
persistence-call flag. -/
def editarTarea (tareas : List Tarea) (idSel : String) (entrada : Option String) :
    Except String (List Tarea × Bool) :=
  match tareas.find? (fun t => t.id == idSel) with
  | none => .error "tarea no encontrada"
  | some _ =>
    if esVaciaJs (entrada.map recortar) then
      .error "La descripción no puede estar vacía"
    else
      match entrada with
      | none => .error "La descripción no puede estar vacía"
      | some d =>
        if hayDuplicadaOtra tareas idSel d then
          .error "Ya existe otra tarea con esa descripción"
        else
          .ok (reemplazarDescripcion tareas idSel (recortar d), true)

/-- `eliminarTarea` after the task selection: on a confirmed deletion,
`_.remove(tareas, t => t._id.equals(sel))` keeps exactly the non-matching
tasks and `persistirTareas()` runs; on a declined confirmation only the
cancellation message is printed.  Returns the collection and the
persistence-call flag. -/
def eliminarTarea (tareas : List Tarea) (idSel : String) (confirmar : Bool) :
    List Tarea × Bool :=
  if confirmar then (tareas.filter (fun t => !(t.id == idSel)), true)
  else (tareas, false)

/-- `new Date(iso).toDateString()` used as the `_.groupBy` key in the
statistics: the calendar date of the timestamp, modelled as the date part
(first 10 characters) of the ISO string. -/
def aDia (fechaIso : String) : String :=
  ⟨fechaIso.data.take 10⟩

/-- Lodash `_.groupBy(tareas, t => new Date(t.fechaCreacion).toDateString())`
followed by `Object.entries`: groups in first-encounter order, each group in
collection order. -/
def agruparPorDia (tareas : List Tarea) : List (String × List Tarea) :=
  tareas.foldl (fun grupos t =>
    let clave := aDia t.fechaCreacion
    if grupos.any (fun g => g.1 == clave) then
      grupos.map (fun g => if g.1 == clave then (g.1, g.2 ++ [t]) else g)
    else grupos ++ [(clave, [t])]) []

/-- Lodash `_.maxBy(entries, ([_, ts]) => ts.length)`: `none` on the empty
list, otherwise the first entry with the strictly greatest task count. -/
def maxPorCantidad (grupos : List (String × List Tarea)) : Option (String × List Tarea) :=
  grupos.foldl (fun mejor g =>
    match mejor with
    | none => some g
    | some m => if g.2.length > m.2.length then some g else mejor) none

/-- `Math.round(num / den)` for nonnegative integers `num`, `den > 0`:
round half away from zero. -/
def redondeoJs (num den : Nat) : Nat :=
  (2 * num + den) / (2 * den)

/-- The `porcentajeCompletadas` expression of `mostrarEstadisticas`:
`stats.total > 0 ? Math.round((stats.completadas / stats.total) * 100) : 0`. -/
def porcentajeDe (total completadas : Nat) : Nat :=
  if total > 0 then redondeoJs (completadas * 100) total else 0

/-- What `mostrarEstadisticas` reports: either the early "no tasks
registered" notice, or the statistics block (total, completed, pending,
completion percentage, most productive day with its task count). -/
inductive SalidaEstadisticas where
  | sinTareas
  | resumen (total completadas pendientes porcentaje : Nat)
      (diaMasProductivo : Option (String × Nat))
  deriving DecidableEq

/-- `mostrarEstadisticas`: on an empty collection it returns right after the
"📭 No hay tareas registradas." message; otherwise it computes and prints
the counters, the percentage and the most productive day. -/
def mostrarEstadisticas (tareas : List Tarea) : SalidaEstadisticas :=
  if tareas.isEmpty then .sinTareas
  else
    let total := tareas.length
    let completadas := (tareas.filter (fun t => t.completada)).length
    let pendientes := (tareas.filter (fun t => !t.completada)).length
    let diaTop := maxPorCantidad (agruparPorDia tareas)
    .resumen total completadas pendientes (porcentajeDe total completadas)
      (diaTop.map (fun g => (g.1, g.2.length)))

/-- The single-task mutations reachable once a task exists: completing it
(`marcarCompletada`), reverting it (`marcarPendiente`), or the in-place
description assignment performed by `editarTarea`. -/
inductive OperacionTarea where
  | completar (ahora : String)
  | reabrir
  | editarDescripcion (nueva : String)

/-- Apply one single-task mutation. -/
def aplicarOperacion (t : Tarea) : OperacionTarea → Tarea
  | .completar ahora => t.marcarCompletada ahora
  | .reabrir => t.marcarPendiente
  | .editarDescripcion nueva => { t with descripcion := nueva }

/-- Restart scenario for id generation.  Session 1 starts a fresh process
(`_.uniqueId` counter 0) with no storage file, creates one task and
persists.  Session 2 is a new process (counter 0 again), reloads the
persisted collection and creates one more task. -/
def escenarioReinicio : List Tarea :=
  let inicio1 := inicializarTareas [] .ausente
  let sesion1 := agregarTarea 0 inicio1 (some "Comprar pan") "2024-09-17T10:30:00.000Z"
  let almacen1 := (guardarTareas true sesion1.tareas .ausente).2
  let inicio2 := inicializarTareas [] almacen1
  agregarTarea 0 inicio2 (some "Lavar ropa") "2024-09-18T09:00:00.000Z" |>.tareas

/-! Concrete tasks used by witnesses: A and C pending, B completed, with
creation timestamps T1 < T2 < T3. -/

/-- Pending task created at T1. -/
def tareaA : Tarea := ⟨"tarea_1", "A", false, "2024-01-01T00:00:00.000Z", none⟩

/-- Completed task created at T2. -/
def tareaB : Tarea := ⟨"tarea_2", "B", true, "2024-01-02T00:00:00.000Z", some "2024-01-05T00:00:00.000Z"⟩

/-- Pending task created at T3. -/
def tareaC : Tarea := ⟨"tarea_3", "C", false, "2024-01-03T00:00:00.000Z", none⟩

/-- Pending task "Buy milk". -/
def tareaLeche : Tarea := ⟨"tarea_1", "Buy milk", false, "2024-09-17T10:30:00.000Z", none⟩

/-- Completed task "Walk dog". -/
def tareaPaseo : Tarea := ⟨"tarea_2", "Walk dog", true, "2024-09-16T08:00:00.000Z", some "2024-09-17T12:00:00.000Z"⟩

/-! Order-theoretic facts about the listing comparison. -/

/-- The lexicographic string comparison is total. -/
theorem leChars_total : ∀ xs ys : List Char, (leChars xs ys || leChars ys xs) = true := by
  intro xs
  induction xs with
  | nil => intro ys; simp [leChars]
  | cons a as ih =>
    intro ys
    cases ys with
    | nil => simp [leChars]
    | cons b bs =>
      simp only [leChars]
      split_ifs with h1 h2 <;> simp [ih bs]

/-- The lexicographic string comparison is transitive. -/
theorem leChars_trans : ∀ xs ys zs : List Char,
    leChars xs ys = true → leChars ys zs = true → leChars xs zs = true := by
  intro xs
  induction xs with
  | nil => intro ys zs _ _; simp [leChars]
  | cons a as ih =>
    intro ys zs h1 h2
    cases ys with
    | nil => simp [leChars] at h1
    | cons b bs =>
      cases zs with
      | nil => simp [leChars] at h2
      | cons c cs =>
        simp only [leChars] at h1 h2 ⊢
        rcases lt_trichotomy a b with hab | hab | hab
        · rcases lt_trichotomy b c with hbc | hbc | hbc
          · simp [lt_trans hab hbc]
          · subst hbc; simp [hab]
          · rw [if_neg (not_lt_of_gt hbc), if_pos hbc] at h2; simp at h2
        · subst hab
          rw [if_neg (lt_irrefl a), if_neg (lt_irrefl a)] at h1
          rcases lt_trichotomy a c with hac | hac | hac
          · simp [hac]
          · subst hac
            rw [if_neg (lt_irrefl a), if_neg (lt_irrefl a)] at h2 ⊢
            exact ih bs cs h1 h2
          · rw [if_neg (not_lt_of_gt hac), if_pos hac] at h2; simp at h2
        · rw [if_neg (not_lt_of_gt hab), if_pos hab] at h1; simp at h1

/-- The two-key listing comparison is total. -/
theorem ordenListado_total (a b : Tarea) : (ordenListado a b || ordenListado b a) = true := by
  simp only [ordenListado, leStr]
  by_cases h : a.completada = b.completada
  · simp [h, leChars_total]
  · have h' : ¬ b.completada = a.completada := fun e => h e.symm
    rw [if_neg h, if_neg h']
    cases ha : a.completada <;> cases hb : b.completada <;> simp_all

/-- The two-key listing comparison is transitive. -/
theorem ordenListado_trans (a b c : Tarea) (h1 : ordenListado a b = true)
    (h2 : ordenListado b c = true) : ordenListado a c = true := by
  simp only [ordenListado, leStr] at h1 h2 ⊢
  cases ha : a.completada <;> cases hb : b.completada <;> cases hc : c.completada <;>
    simp_all <;> exact leChars_trans _ _ _ h2 h1

/-- Everything in an insertion is the new element or an old one. -/
theorem mem_insertarOrdenado {α : Type} (le : α → α → Bool) (x z : α) :
    ∀ l : List α, z ∈ insertarOrdenado le x l → z = x ∨ z ∈ l := by
  intro l
  induction l with
  | nil => simp [insertarOrdenado]
  | cons y ys ih =>
    simp only [insertarOrdenado]
    split_ifs with h
    · intro hz
      rcases List.mem_cons.mp hz with rfl | hz'
      · left; rfl
      · right; exact hz'
    · intro hz
      rcases List.mem_cons.mp hz with rfl | hz'
      · right; exact List.mem_cons_self _ _
      · rcases ih hz' with h' | h'
        · left; exact h'
        · right; exact List.mem_cons_of_mem _ h'

/-- Stable insertion preserves sortedness of a total transitive comparison. -/
theorem pairwise_insertarOrdenado {α : Type} (le : α → α → Bool)
    (htrans : ∀ a b c, le a b = true → le b c = true → le a c = true)
    (htotal : ∀ a b, (le a b || le b a) = true) (x : α) :
    ∀ l : List α, l.Pairwise (fun a b => le a b = true) →
      (insertarOrdenado le x l).Pairwise (fun a b => le a b = true) := by
  intro l
  induction l with
  | nil => intro _; simp [insertarOrdenado]
  | cons y ys ih =>
    intro hp
    rcases List.pairwise_cons.mp hp with ⟨hy, hys⟩
    simp only [insertarOrdenado]
    split_ifs with h
    · refine List.pairwise_cons.mpr ⟨?_, hp⟩
      intro z hz
      rcases List.mem_cons.mp hz with rfl | hz'
      · exact h
      · exact htrans x y z h (hy z hz')
    · refine List.pairwise_cons.mpr ⟨?_, ih hys⟩
      intro z hz
      rcases mem_insertarOrdenado le x z ys hz with rfl | hz'
      · cases hxy : le z y with
        | true => exact absurd hxy h
        | false =>
          have htot := htotal z y
          rw [hxy] at htot
          simpa using htot
      · exact hy z hz'

/-- The stable sort is sorted for a total transitive comparison. -/
theorem pairwise_ordenarEstable {α : Type} (le : α → α → Bool)
    (htrans : ∀ a b c, le a b = true → le b c = true → le a c = true)
    (htotal : ∀ a b, (le a b || le b a) = true) :
    ∀ l : List α, (ordenarEstable le l).Pairwise (fun a b => le a b = true) := by
  intro l
  induction l with
  | nil => simp [ordenarEstable]
  | cons x xs ih =>
    exact pairwise_insertarOrdenado le htrans htotal x (ordenarEstable le xs) ih

/-! The claims. -/

/-- Claim C1: persistence round-trip.  For every in-memory collection `C`,
a `guardarTareas` call that reports success followed by `inicializarTareas`
(which clears whatever collection is in memory and reloads through
`cargarTareas`) reconstructs a collection equal to `C` field by field on
`id`, `descripcion`, `completada`, `fechaCreacion` and `fechaCompletada`
— these five fields are all the fields of a task. -/
theorem persistencia_ida_y_vuelta (C anteriores : List Tarea) (st : Almacenamiento)
    (escrituraOk : Bool) (h : (guardarTareas escrituraOk C st).1 = true) :
    inicializarTareas anteriores (guardarTareas escrituraOk C st).2 = C := by
  cases escrituraOk with
  | false => simp [guardarTareas] at h
  | true => simp [guardarTareas, inicializarTareas, cargarTareas]

/-- Witness for C1 at a concrete collection and an initially missing file. -/
theorem persistencia_ida_y_vuelta_witness :
    inicializarTareas [tareaA] (guardarTareas true [tareaB, tareaC] .ausente).2 =
      [tareaB, tareaC] :=
  persistencia_ida_y_vuelta [tareaB, tareaC] [tareaA] .ausente true rfl

/-- Claim C2: for every collection and every filter, the displayed list is
sorted by `completada` ascending (pending before completed) and, within
equal completion state, by `fechaCreacion` descending; and for the tasks
`A` (pending, T1), `B` (completed, T2), `C` (pending, T3) with T3 > T1,
`listarTareas todas` yields `[C, A, B]` for every one of the six insertion
orders. -/
theorem listado_ordenado :
    (∀ (filtro : Filtro) (tareas : List Tarea),
        (listarTareas filtro tareas).Pairwise (fun a b => ordenListado a b = true))
    ∧ (∀ l : List Tarea,
        l ∈ [[tareaA, tareaB, tareaC], [tareaA, tareaC, tareaB], [tareaB, tareaA, tareaC],
             [tareaB, tareaC, tareaA], [tareaC, tareaA, tareaB], [tareaC, tareaB, tareaA]] →
        listarTareas .todas l = [tareaC, tareaA, tareaB]) := by
  constructor
  · intro filtro tareas
    cases filtro <;>
      exact pairwise_ordenarEstable ordenListado ordenListado_trans ordenListado_total _
  · decide

/-- Witness for C2 on one concrete insertion order. -/
theorem listado_ordenado_witness :
    listarTareas .todas [tareaA, tareaB, tareaC] = [tareaC, tareaA, tareaB] :=
  listado_ordenado.2 [tareaA, tareaB, tareaC] (by decide)

/-- Claim C7: `cargarTareas` is fail-soft — a missing file, an access
failure and unparseable content all yield the empty list instead of an
error, and `inicializarTareas` therefore starts the engine with a valid
empty collection in each of those states, whatever was in memory before. -/
theorem cargar_tolerante_a_fallos :
    (cargarTareas .ausente = [] ∧ cargarTareas .sinAcceso = []
      ∧ cargarTareas .corrupto = [])
    ∧ (∀ anteriores : List Tarea,
        inicializarTareas anteriores .ausente = []
        ∧ inicializarTareas anteriores .sinAcceso = []
        ∧ inicializarTareas anteriores .corrupto = []) :=
  ⟨⟨rfl, rfl, rfl⟩, fun _ => ⟨rfl, rfl, rfl⟩⟩

/-- Claim C10: when the delete confirmation is declined, `eliminarTarea`
returns the collection unchanged and does not call persistence; removal of
the selected task (and only it) together with the persistence call happen
exactly on an affirmative confirmation. -/
theorem eliminar_solo_confirmada :
    (∀ (tareas : List Tarea) (idSel : String),
        eliminarTarea tareas idSel false = (tareas, false))
    ∧ (∀ (tareas : List Tarea) (idSel : String),
        (eliminarTarea tareas idSel true).2 = true
        ∧ ∀ t : Tarea, t ∈ (eliminarTarea tareas idSel true).1 ↔ t ∈ tareas ∧ t.id ≠ idSel) := by
  refine ⟨fun tareas idSel => rfl, fun tareas idSel => ⟨rfl, fun t => ?_⟩⟩
  simp [eliminarTarea, List.mem_filter]

/-- Claim C3 (code bug demonstration): `_.uniqueId` restarts from 0 in every
process, so after a restart that reloads the persisted collection the next
created task receives the id `tarea_1` again — the reachable state
`escenarioReinicio` holds two tasks with the same id, violating pairwise
distinctness of ids. -/
theorem ids_duplicados_tras_reinicio :
    escenarioReinicio.map (fun t => t.id) = ["tarea_1", "tarea_1"]
    ∧ ¬ (escenarioReinicio.map (fun t => t.id)).Nodup := by
  constructor
  · decide
  · decide

/-- Counterexample for C4: on the empty collection `mostrarEstadisticas`
returns the early "no tasks registered" notice, not the zero statistics
record claimed. -/
theorem estadisticas_vacia_contraejemplo :
    mostrarEstadisticas [] ≠ SalidaEstadisticas.resumen 0 0 0 0 none := by
  decide

/-- Claim C4 as amended: on an empty collection `mostrarEstadisticas` exits
early with the empty-collection signal and computes no statistics record;
the completion-percentage expression it would use is guarded to `0` when
`total = 0`, and the most-productive-day computation on an empty collection
yields `none`. -/
theorem estadisticas_vacia_senal :
    mostrarEstadisticas [] = SalidaEstadisticas.sinTareas
    ∧ (∀ completadas : Nat, porcentajeDe 0 completadas = 0)
    ∧ maxPorCantidad (agruparPorDia []) = none :=
  ⟨rfl, fun _ => rfl, rfl⟩

/-- The completion flag and the completion timestamp stay coherent through
one mutation. -/
theorem coherencia_aplicar (t : Tarea) (op : OperacionTarea)
    (h : t.fechaCompletada.isSome = t.completada) :
    (aplicarOperacion t op).fechaCompletada.isSome = (aplicarOperacion t op).completada := by
  cases op <;> simp [aplicarOperacion, Tarea.marcarCompletada, Tarea.marcarPendiente, h]

/-- The coherence of flag and timestamp is preserved by every sequence of
mutations. -/
theorem coherencia_foldl : ∀ (ops : List OperacionTarea) (t : Tarea),
    t.fechaCompletada.isSome = t.completada →
    (ops.foldl aplicarOperacion t).fechaCompletada.isSome
      = (ops.foldl aplicarOperacion t).completada := by
  intro ops
  induction ops with
  | nil => intro t h; simpa using h
  | cons op ops ih => intro t h; exact ih _ (coherencia_aplicar t op h)

/-- Claim C6: a freshly constructed task is pending with no
`fechaCompletada` field; after any sequence of completions, reopenings and
description edits the `fechaCompletada` field is present exactly when
`completada` is true; `marcarCompletada` sets the field and
`marcarPendiente` removes it entirely (`none`, the absent field, not a null
value). -/
theorem completada_sii_fecha (contador : Nat) (descripcion ahora : String)
    (ops : List OperacionTarea) :
    ((Tarea.nueva contador descripcion ahora).1.completada = false
      ∧ (Tarea.nueva contador descripcion ahora).1.fechaCompletada = none)
    ∧ (ops.foldl aplicarOperacion (Tarea.nueva contador descripcion ahora).1).fechaCompletada.isSome
        = (ops.foldl aplicarOperacion (Tarea.nueva contador descripcion ahora).1).completada
    ∧ (∀ (t : Tarea) (a : String), (t.marcarCompletada a).completada = true
        ∧ (t.marcarCompletada a).fechaCompletada = some a)
    ∧ (∀ t : Tarea, t.marcarPendiente.completada = false
        ∧ t.marcarPendiente.fechaCompletada = none) :=
  ⟨⟨rfl, rfl⟩, coherencia_foldl ops _ rfl, fun _ _ => ⟨rfl, rfl⟩, fun _ => ⟨rfl, rfl⟩⟩

/-- A string is empty exactly when its character list is empty. -/
theorem cadena_vacia_sii (s : String) : s.data.isEmpty = true ↔ s = "" := by
  constructor
  · intro h
    apply String.ext
    simpa [List.isEmpty_iff] using h
  · intro h
    subst h
    rfl

/-- Claim C9: `validarDescripcion` is total on null/absent input — it
returns `false` for `none` instead of raising — and on a string it returns
`true` exactly when the trimmed string is non-empty; consequently the
factory `crearTarea` rejects a null/absent description and rejects a
whitespace-only description with the validation error. -/
theorem validacion_total_en_nulos :
    Tarea.validarDescripcion none = false
    ∧ (∀ s : String, Tarea.validarDescripcion (some s) = true ↔ recortar s ≠ "")
    ∧ (∀ (contador : Nat) (ahora : String),
        Tarea.crearTarea contador none ahora
          = .error "La descripción de la tarea no puede estar vacía")
    ∧ (∀ (contador : Nat) (s ahora : String),
        Tarea.crearTarea contador (some s) ahora
            = .error "La descripción de la tarea no puede estar vacía"
          ↔ recortar s = "") := by
  have hval : ∀ s : String, Tarea.validarDescripcion (some s) = true ↔ recortar s ≠ "" := by
    intro s
    simp only [Tarea.validarDescripcion, esVaciaJs, Option.map_some']
    constructor
    · intro h he
      rw [Bool.not_eq_true'] at h
      rw [(cadena_vacia_sii (recortar s)).mpr he] at h
      simp at h
    · intro h
      rw [Bool.not_eq_true']
      by_contra hne
      rw [Bool.not_eq_false] at hne
      exact h ((cadena_vacia_sii (recortar s)).mp hne)
  refine ⟨rfl, hval, fun _ _ => rfl, fun contador s ahora => ?_⟩
  constructor
  · intro h
    by_contra hne
    have hv : Tarea.validarDescripcion (some s) = true := (hval s).mpr hne
    simp only [Tarea.crearTarea, hv, if_true] at h
    exact Except.noConfusion h
  · intro h
    have hv : Tarea.validarDescripcion (some s) = false := by
      rw [Bool.eq_false_iff]
      intro he
      exact ((hval s).mp he) h
    simp [Tarea.crearTarea, hv]

/-- Lowercasing an equal pair of strings forces equal lengths, so a
non-empty description can only collide with a non-empty input. -/
theorem recorte_no_vacio_de_choque (t : Tarea) (d : String) (hne : t.descripcion ≠ "")
    (hdup : minusculas t.descripcion = minusculas (recortar d)) :
    esVaciaJs (some (recortar d)) = false := by
  simp only [esVaciaJs]
  rw [Bool.eq_false_iff]
  intro he
  have hd : (recortar d).data = [] := by simpa [List.isEmpty_iff] using he
  have h1 : t.descripcion.data.map Char.toLower = (recortar d).data.map Char.toLower :=
    congrArg String.data hdup
  rw [hd] at h1
  simp only [List.map_nil, List.map_eq_nil_iff] at h1
  exact hne (String.ext h1)

/-- Claim C5: duplicate rejection with atomicity.  Whenever the collection
holds a task whose description (stored trimmed and non-empty) equals the
trimmed new input under case-insensitive comparison, `agregarTarea` reports
the duplicate error, leaves the collection and the id counter unchanged,
and performs no persistence call. -/
theorem agregar_duplicada_atomica (contador : Nat) (tareas : List Tarea) (d ahora : String)
    (t : Tarea) (ht : t ∈ tareas) (hne : t.descripcion ≠ "")
    (hdup : minusculas t.descripcion = minusculas (recortar d)) :
    agregarTarea contador tareas (some d) ahora
      = ⟨tareas, contador, false, some "Ya existe una tarea con esa descripción"⟩ := by
  have hvac := recorte_no_vacio_de_choque t d hne hdup
  have hfind : (tareas.find?
      (fun u => minusculas u.descripcion == minusculas (recortar d))).isSome := by
    rw [List.find?_isSome]
    exact ⟨t, ht, by simp [hdup]⟩
  obtain ⟨u, hu⟩ := Option.isSome_iff_exists.mp hfind
  simp [agregarTarea, validarDescripcionNueva, hvac, hu]

/-- Witness for C5: "Buy milk" already present, then "buy milk" typed. -/
theorem agregar_duplicada_atomica_witness :
    agregarTarea 1 [tareaLeche] (some "buy milk") "2024-09-18T09:00:00.000Z"
      = ⟨[tareaLeche], 1, false, some "Ya existe una tarea con esa descripción"⟩ :=
  agregar_duplicada_atomica 1 [tareaLeche] "buy milk" "2024-09-18T09:00:00.000Z"
    tareaLeche (by decide) (by decide) (by decide)

/-- Mapping a function that fixes every member of a list is the identity. -/
theorem map_identidad_en (ts : List Tarea) (f : Tarea → Tarea)
    (h : ∀ t ∈ ts, f t = t) : ts.map f = ts := by
  induction ts with
  | nil => rfl
  | cons t ts ih =>
    rw [List.map_cons, h t (List.mem_cons_self t ts),
      ih (fun u hu => h u (List.mem_cons_of_mem t hu))]

/-- With pairwise distinct ids, rewriting the first task found by id is the
same as rewriting exactly the tasks whose id matches. -/
theorem reemplazar_eq_map : ∀ (ts : List Tarea) (idSel nueva : String),
    (ts.map (fun t => t.id)).Nodup →
    reemplazarDescripcion ts idSel nueva
      = ts.map (fun t => if t.id = idSel then { t with descripcion := nueva } else t) := by
  intro ts idSel nueva
  induction ts with
  | nil => intro _; rfl
  | cons t ts ih =>
    intro hids
    rw [List.map_cons, List.nodup_cons] at hids
    obtain ⟨hnotin, hnd⟩ := hids
    simp only [reemplazarDescripcion, List.map_cons]
    by_cases h : t.id = idSel
    · rw [if_pos (by simpa using h), if_pos h]
      have hmap : ts.map (fun u => if u.id = idSel then { u with descripcion := nueva } else u)
          = ts := by
        apply map_identidad_en
        intro u hu
        rw [if_neg]
        intro he
        exact hnotin (h ▸ he ▸ List.mem_map_of_mem (fun t => t.id) hu)
      rw [hmap]
    · rw [if_neg (by simpa using h), if_neg h, ih hnd]

/-- Claim C8: frame property of `editarTarea`.  For a collection with
pairwise distinct ids containing the selected id, and an accepted new
description (non-empty after trimming, no case-insensitive duplicate among
the *other* tasks — the edited task itself is excluded from the duplicate
check, so its own description may match), the edit succeeds, persists, and
changes exactly the selected task's description to the trimmed input,
leaving its `id`, `completada`, `fechaCreacion`, `fechaCompletada` and
every other task untouched. -/
theorem editar_solo_descripcion (tareas : List Tarea) (idSel d : String)
    (hids : (tareas.map (fun t => t.id)).Nodup)
    (hex : ∃ t, t ∈ tareas ∧ t.id = idSel)
    (hne : recortar d ≠ "")
    (hotros : ∀ t ∈ tareas, t.id ≠ idSel →
      minusculas t.descripcion ≠ minusculas (recortar d)) :
    editarTarea tareas idSel (some d)
      = .ok (tareas.map
          (fun t => if t.id = idSel then { t with descripcion := recortar d } else t),
        true) := by
  obtain ⟨t0, ht0, hid0⟩ := hex
  have hfind : (tareas.find? (fun t => t.id == idSel)).isSome := by
    rw [List.find?_isSome]
    exact ⟨t0, ht0, by simp [hid0]⟩
  obtain ⟨u, hu⟩ := Option.isSome_iff_exists.mp hfind
  have hvac : esVaciaJs (some (recortar d)) = false := by
    simp only [esVaciaJs]
    rw [Bool.eq_false_iff]
    intro he
    exact hne ((cadena_vacia_sii (recortar d)).mp he)
  have hdup : hayDuplicadaOtra tareas idSel d = false := by
    simp only [hayDuplicadaOtra]
    have hnone : tareas.find?
        (fun t => !(t.id == idSel) && (minusculas t.descripcion == minusculas (recortar d)))
        = none := by
      rw [List.find?_eq_none]
      intro t htmem hcontra
      rw [Bool.and_eq_true] at hcontra
      obtain ⟨h1, h2⟩ := hcontra
      have hti : t.id ≠ idSel := by simpa using h1
      exact hotros t htmem hti (by simpa using h2)
    rw [hnone]
    rfl
  simp [editarTarea, hu, hvac, hdup, reemplazar_eq_map tareas idSel (recortar d) hids]

/-- Witness for C8: editing the "Buy milk" task to " BUY MILK " — a
case-insensitive match of its *own* description — succeeds, trims, and
leaves the other task untouched. -/
theorem editar_solo_descripcion_witness :
    editarTarea [tareaLeche, tareaPaseo] "tarea_1" (some " BUY MILK ")
      = .ok ([tareaLeche, tareaPaseo].map
          (fun t => if t.id = "tarea_1" then { t with descripcion := recortar " BUY MILK " } else t),
        true) :=
  editar_solo_descripcion [tareaLeche, tareaPaseo] "tarea_1" " BUY MILK "
    (by decide) ⟨tareaLeche, by decide, by decide⟩ (by decide) (by decide)

end GestorTareas

